import Mathlib

/-!
Shallow embedding of the speakpro repository's core logic:
`src/services/geminiService.ts` (the retry orchestrator `callWithRetry`, the
base64 codec `encode`/`decode`, and the PCM decoder `decodeAudioData`) and
`src/services/historyService.ts` (the localStorage-backed lesson history and
its derived views).  JavaScript strings are Lean `String`s, byte arrays are
`List Nat` with elements below 256, timestamps (`Date.getTime()` values, ISO
strings parsed by `new Date(...)`) are `Int` epoch milliseconds, and the
floating-point arithmetic of scores/delays (which stays well inside the
exactly-representable range in the source) is `ℚ`.
-/

namespace SpeakPro

/-! ## String helpers: JS `String.prototype.includes` and `toLowerCase` -/

/-- Substring test on character lists: `needle` occurs contiguously in `hay`.
Models JS `hay.includes(needle)`. -/
def hasSub (needle : List Char) : List Char → Bool
  | [] => needle.isEmpty
  | c :: rest => needle.isPrefixOf (c :: rest) || hasSub needle rest

/-- JS `hay.includes(needle)` over Lean strings. -/
def strContains (hay needle : String) : Bool :=
  hasSub needle.toList hay.toList

/-- JS `toLowerCase`, character by character (the markers the classifier
searches are plain ASCII). -/
def strToLower (s : String) : String := String.mk (s.data.map Char.toLower)

/-! ## Error model for the retry orchestrator

A caught JS exception as `callWithRetry` probes it: an optional numeric
`status`, an optional `message`, and `serialized` standing for the string
`JSON.stringify(err)` that the classifier searches. -/

structure JsError where
  status : Option Nat
  message : Option String
  serialized : String
deriving DecidableEq, Repr

/-- JS `a || b` on an optional string: the fallback is used when the value is
absent (`undefined`) or the empty string (falsy). -/
def jsOr (m : Option String) (fallback : String) : String :=
  match m with
  | none => fallback
  | some s => if s = "" then fallback else s

/-- The transient (quota / rate-limit) classifier of
`src/services/geminiService.ts` lines 55-61:
`err?.status === 429 || err?.message?.includes('429') ||
 errorStr.includes('quota') || errorStr.includes('resource_exhausted') ||
 errorStr.includes('rate_limit')` with
`errorStr = JSON.stringify(err).toLowerCase()`. -/
def isQuotaError (e : JsError) : Bool :=
  e.status == some 429 ||
  (match e.message with
   | some m => strContains m "429"
   | none => false) ||
  strContains (strToLower e.serialized) "quota" ||
  strContains (strToLower e.serialized) "resource_exhausted" ||
  strContains (strToLower e.serialized) "rate_limit"

/-- The same classifier as written in `src/unnamed/part_000` lines 67-72: the
message is first lowercased (`errorMessage = err?.message?.toLowerCase() || ''`)
before the `'429'` search. -/
def isQuotaErrorP0 (e : JsError) : Bool :=
  e.status == some 429 ||
  strContains (strToLower (jsOr e.message "")) "429" ||
  strContains (strToLower e.serialized) "quota" ||
  strContains (strToLower e.serialized) "resource_exhausted" ||
  strContains (strToLower e.serialized) "rate_limit"

/-- What a `callWithRetry` run throws: `original e` is JS `throw err`
(rethrowing the caught error object itself), `newError msg` is JS
`throw new Error(msg)`. -/
inductive Thrown where
  | original (e : JsError)
  | newError (msg : String)
deriving DecidableEq, Repr

deriving instance DecidableEq for Except

/-- Observable trace of one orchestrated call: the outcome, the backoff waits
inserted between attempts (in order, milliseconds), and how many times the
wrapped operation was invoked. -/
structure RetryTrace (T : Type) where
  result : Except Thrown T
  waits : List ℚ
  attempts : Nat
deriving DecidableEq, Repr

/-- The terminal message of `src/services/geminiService.ts` line 77. -/
def serverBusyMsg : String :=
  "MÁY CHỦ BẬN: Bé vui lòng chờ 30 giây rồi nhấn 'Thử lại' nhé!"

/-- The loop of `callWithRetry` (`src/services/geminiService.ts` lines 51-78).
The wrapped operation is a schedule `fn : Nat → Except JsError T` giving each
attempt's outcome.  `fuel` is the number of loop iterations left
(`maxRetries - i`, kept structural so the definition computes); `i` is the
loop index, `delay` the current backoff, `waits` the waits so far.  The
fuel-exhausted branch is the code after the `for` loop:
`throw new Error("MÁY CHỦ BẬN: ...")`. -/
def retryGo {T : Type} (fn : Nat → Except JsError T) (maxRetries : Nat) :
    Nat → Nat → ℚ → List ℚ → RetryTrace T
  | 0, i, _, waits => ⟨Except.error (Thrown.newError serverBusyMsg), waits, i⟩
  | fuel + 1, i, delay, waits =>
    match fn i with
    | Except.ok v => ⟨Except.ok v, waits, i + 1⟩
    | Except.error err =>
      if isQuotaError err && decide (i < maxRetries - 1) then
        -- await new Promise(...); delay *= 2.5; continue
        retryGo fn maxRetries fuel (i + 1) (delay * (5 / 2)) (waits ++ [delay])
      else
        -- throw err  (non-quota error, or quota error with no retries left)
        ⟨Except.error (Thrown.original err), waits, i + 1⟩

/-- `callWithRetry(fn, maxRetries = 4)` of `src/services/geminiService.ts`:
`let delay = 1500; for (let i = 0; i < maxRetries; i++) ...`. -/
def callWithRetry {T : Type} (fn : Nat → Except JsError T)
    (maxRetries : Nat := 4) : RetryTrace T :=
  retryGo fn maxRetries maxRetries 0 1500 []

/-- The terminal ServerBusy message of `src/unnamed/part_000` line 91. -/
def serverBusyMsgP0 : String :=
  "MÁY CHỦ BẬN: Ms Ly AI đang phục vụ quá nhiều bạn nhỏ. Bé chờ 30 giây rồi nhấn 'Thử lại' nhé!"

/-- The code after the loop in `src/unnamed/part_000` lines 88-93:
`actualMessage = lastError?.message || 'Unknown error'`; ServerBusy when it
contains `'quota'` or `'429'` (case-sensitive here), else `Lỗi: ...`. -/
def p0Final {T : Type} (lastError : Option JsError) : Except Thrown T :=
  let actualMessage := jsOr (lastError.bind (·.message)) "Unknown error"
  if strContains actualMessage "quota" || strContains actualMessage "429" then
    Except.error (Thrown.newError serverBusyMsgP0)
  else
    Except.error (Thrown.newError ("Lỗi: " ++ actualMessage))

/-- The loop of the `callWithRetry` variant in `src/unnamed/part_000` lines
50-94, which tracks `lastError` and falls through to the post-loop code when a
quota error exhausts the budget; a non-quota error throws
`new Error(err?.message || 'Lỗi API: ' + JSON.stringify(err))` at once. -/
def retryGoP0 {T : Type} (fn : Nat → Except JsError T) (maxRetries : Nat) :
    Nat → Nat → ℚ → List ℚ → Option JsError → RetryTrace T
  | 0, i, _, waits, lastError => ⟨p0Final lastError, waits, i⟩
  | fuel + 1, i, delay, waits, _ =>
    match fn i with
    | Except.ok v => ⟨Except.ok v, waits, i + 1⟩
    | Except.error err =>
      if isQuotaErrorP0 err && decide (i < maxRetries - 1) then
        retryGoP0 fn maxRetries fuel (i + 1) (delay * (5 / 2))
          (waits ++ [delay]) (some err)
      else if !isQuotaErrorP0 err then
        ⟨Except.error (Thrown.newError
            (jsOr err.message ("Lỗi API: " ++ err.serialized))), waits, i + 1⟩
      else
        -- quota error with no budget left: the catch block ends without
        -- throwing, the loop exits, and the post-loop code runs
        retryGoP0 fn maxRetries fuel (i + 1) delay waits (some err)

/-- `callWithRetry(fn, maxRetries = 4)` as written in `src/unnamed/part_000`. -/
def callWithRetryP0 {T : Type} (fn : Nat → Except JsError T)
    (maxRetries : Nat := 4) : RetryTrace T :=
  retryGoP0 fn maxRetries maxRetries 0 1500 [] none

/-! ## Audio codec bridge: base64 `encode`/`decode`

`encode` (`src/services/geminiService.ts` lines 278-283) builds a binary
string from the bytes and calls `btoa`; `decode` (lines 252-258) calls `atob`
and reads the char codes back.  Both are standard base64 over the byte
sequence, so they are embedded as the base64 coder over `List Nat` (bytes)
and `List Char` (the base64 text). -/

/-- The base64 alphabet, index 0-63. -/
def base64Chars : List Char :=
  "ABCDEFGHIJKLMNOPQRSTUVWXYZabcdefghijklmnopqrstuvwxyz0123456789+/".toList

/-- The base64 digit for a sextet (used by `btoa`). -/
def charOfSextet (n : Nat) : Char := base64Chars.getD n '='

/-- The sextet of a base64 digit, `none` for a character outside the alphabet
(`atob` throws on such input). -/
def sextetOfChar (c : Char) : Option Nat :=
  go base64Chars 0
where
  go : List Char → Nat → Option Nat
    | [], _ => none
    | a :: rest, k => if a = c then some k else go rest (k + 1)

/-- `btoa` over 3-byte groups: 3 bytes become 4 base64 digits, a final group
of 1 or 2 bytes is padded with `=`. -/
def encodeChunks : List Nat → List Char
  | [] => []
  | [b0] => [charOfSextet (b0 / 4), charOfSextet (b0 % 4 * 16), '=', '=']
  | [b0, b1] => [charOfSextet (b0 / 4), charOfSextet (b0 % 4 * 16 + b1 / 16),
      charOfSextet (b1 % 16 * 4), '=']
  | b0 :: b1 :: b2 :: rest =>
      charOfSextet (b0 / 4) :: charOfSextet (b0 % 4 * 16 + b1 / 16) ::
      charOfSextet (b1 % 16 * 4 + b2 / 64) :: charOfSextet (b2 % 64) ::
      encodeChunks rest

/-- `atob` over 4-digit groups (padded base64): the inverse of
`encodeChunks`, `none` on input that is not well-formed base64. -/
def decodeChunks : List Char → Option (List Nat)
  | [] => some []
  | c0 :: c1 :: c2 :: c3 :: rest =>
    if c2 = '=' ∧ c3 = '=' ∧ rest = [] then
      match sextetOfChar c0, sextetOfChar c1 with
      | some s0, some s1 => some [s0 * 4 + s1 / 16]
      | _, _ => none
    else if c3 = '=' ∧ rest = [] then
      match sextetOfChar c0, sextetOfChar c1, sextetOfChar c2 with
      | some s0, some s1, some s2 =>
          some [s0 * 4 + s1 / 16, s1 % 16 * 16 + s2 / 4]
      | _, _, _ => none
    else
      match sextetOfChar c0, sextetOfChar c1, sextetOfChar c2,
          sextetOfChar c3, decodeChunks rest with
      | some s0, some s1, some s2, some s3, some bs =>
          some ((s0 * 4 + s1 / 16) :: (s1 % 16 * 16 + s2 / 4) ::
            (s2 % 4 * 64 + s3) :: bs)
      | _, _, _, _, _ => none
  | _ => none

/-- `export function encode(bytes)`: bytes to base64 text. -/
def encode (bytes : List Nat) : List Char := encodeChunks bytes

/-- `export function decode(base64)`: base64 text to bytes, `none` when `atob`
throws on malformed input. -/
def decode (base64 : List Char) : Option (List Nat) := decodeChunks base64

/-! ## Audio codec bridge: `decodeAudioData` -/

/-- The failures of `decodeAudioData`: `new Int16Array(data.buffer)` throws a
`RangeError` when the byte length is not a multiple of 2 (the spec's
DecodeError), and `ctx.createBuffer` throws a `NotSupportedError` when its
length argument is zero. -/
inductive DecodeError where
  | oddByteLength
  | zeroLengthBuffer
deriving DecidableEq, Repr

/-- `new Int16Array(data.buffer)`: consecutive byte pairs read as signed
16-bit little-endian integers (a trailing lone byte cannot occur: the
constructor throws first, see `decodeAudioData`). -/
def bytesToInt16 : List Nat → List Int
  | b0 :: b1 :: rest =>
      (let u := b0 + 256 * b1
       if u < 32768 then (u : Int) else (u : Int) - 65536) :: bytesToInt16 rest
  | _ => []

/-- The signed 16-bit little-endian sample at index `k` of a byte sequence:
the two bytes `2*k` and `2*k+1`. -/
def int16At (data : List Nat) (k : Nat) : Int :=
  let u := data.getD (2 * k) 0 + 256 * data.getD (2 * k + 1) 0
  if u < 32768 then (u : Int) else (u : Int) - 65536

/-- `decodeAudioData(data, ctx, sampleRate, numChannels)`
(`src/services/geminiService.ts` lines 260-276), observable output only (the
`AudioBuffer` as the list of its channels' sample arrays; `ctx` and
`sampleRate` only parameterize playback).  In the source
`frameCount = dataInt16.length / numChannels` is a JS float; the
`ctx.createBuffer` length argument truncates it (WebIDL unsigned long
conversion), and the copy loop's writes at indices at or past the channel
buffer's length (possible when the division is fractional, since the loop
bound is the untruncated float) are silently dropped by the Float32Array.  So
each channel observably holds `⌊dataInt16.length / numChannels⌋` samples:
Nat floor division below.  When that truncated length is zero,
`ctx.createBuffer` throws a `NotSupportedError` instead of building a buffer
(this also covers `numChannels = 0`, whose JS division yields Infinity and
whose unsigned-long conversion is 0; channel counts beyond the
implementation's supported maximum are implementation-defined in
`createBuffer` and not modelled — every call site passes 1). -/
def decodeAudioData (data : List Nat) (numChannels : Nat) :
    Except DecodeError (List (List ℚ)) :=
  if data.length % 2 ≠ 0 then Except.error DecodeError.oddByteLength
  else
    let dataInt16 := bytesToInt16 data
    let frameCount := dataInt16.length / numChannels
    if frameCount = 0 then Except.error DecodeError.zeroLengthBuffer
    else
      Except.ok ((List.range numChannels).map fun channel =>
        (List.range frameCount).map fun i =>
          ((dataInt16.getD (i * numChannels + channel) 0 : ℤ) : ℚ) / 32768)

/-! ## Lesson history store (`src/services/historyService.ts`)

`localStorage` under `speakpro_lesson_history` is modelled by `StoredValue`;
a record's ISO `date` string is its parsed timestamp (epoch milliseconds,
`Int`), and the ISO date prefix `date.split('T')[0]` used as the grouping key
is the UTC calendar-day number `dayOf`. -/

structure LessonRecord where
  id : String
  date : Int
  theme : String
  level : String
  childName : String
  score : ℚ
  pronunciation : ℚ
  fluency : ℚ
  intonation : ℚ
  vocabulary : ℚ
  grammar : ℚ
  taskFulfillment : ℚ
  perceivedLevel : String
  duration : ℚ
deriving DecidableEq, Repr

/-- The value under the `speakpro_lesson_history` localStorage key: missing
(`getItem` returns `null`), present but not parseable as a record list
(`JSON.parse` or the subsequent `.filter` throws, caught by the
`try ... catch`), or a stored record list. -/
inductive StoredValue where
  | absent
  | corrupt (raw : String)
  | valid (records : List LessonRecord)
deriving DecidableEq, Repr

/-- `EXPIRY_DAYS = 7`. -/
def EXPIRY_DAYS : ℚ := 7

/-- `1000 * 60 * 60 * 24`, the divisor in the expiry test. -/
def msPerDay : ℚ := 1000 * 60 * 60 * 24

/-- The record filter of `getLessonHistory`:
`diffDays = (now.getTime() - recordDate.getTime()) / (1000*60*60*24)` and the
record is kept when `diffDays <= EXPIRY_DAYS`. -/
def isFresh (now : Int) (r : LessonRecord) : Bool :=
  decide (((now - r.date : ℤ) : ℚ) / msPerDay ≤ EXPIRY_DAYS)

/-- `getLessonHistory()` (`src/services/historyService.ts` lines 26-50):
returns the surviving records and the store's state after the read (the
filtered list is written back only when something was dropped; absent or
unparseable storage yields `[]` from the catch without a write). -/
def getLessonHistory (stored : StoredValue) (now : Int) :
    List LessonRecord × StoredValue :=
  match stored with
  | StoredValue.absent => ([], StoredValue.absent)
  | StoredValue.corrupt raw => ([], StoredValue.corrupt raw)
  | StoredValue.valid records =>
    let validRecords := records.filter (isFresh now)
    if validRecords.length ≠ records.length then
      (validRecords, StoredValue.valid validRecords)
    else
      (validRecords, StoredValue.valid records)

/-- The UTC calendar-day number of a timestamp: `Int.fdiv` is floor division,
so two timestamps share it exactly when their ISO strings share the
`date.split('T')[0]` prefix (UTC). -/
def dayOf (t : Int) : Int := Int.fdiv t 86400000

/-- `Math.round`: round half toward positive infinity. -/
def jsRound (q : ℚ) : ℤ := ⌊q + 1 / 2⌋

/-- One entry of `getLessonsGroupedByDay`: `{date, lessons, avgScore}` with
the date as its day number. -/
structure GroupedDay where
  date : Int
  lessons : List LessonRecord
  avgScore : ℚ
deriving DecidableEq, Repr

/-- `avgScore`: `Math.round(sum / length * 10) / 10` for a non-empty day,
`0` otherwise. -/
def avgScoreOf (lessons : List LessonRecord) : ℚ :=
  if lessons.length > 0 then
    (jsRound ((lessons.map (·.score)).sum / lessons.length * 10) : ℚ) / 10
  else 0

/-- `getLessonsGroupedByDay()` (`src/services/historyService.ts` lines
89-116): one entry per day for the last 7 days, oldest (`today - 6`) first,
each holding the surviving records whose date key matches that day, in
stored order. -/
def getLessonsGroupedByDay (stored : StoredValue) (now : Int) :
    List GroupedDay :=
  let history := (getLessonHistory stored now).1
  (List.range 7).map fun j =>
    let d := dayOf now - (6 - (j : Int))
    let lessons := history.filter fun r => dayOf r.date == d
    ⟨d, lessons, avgScoreOf lessons⟩

/-- The break scan of `getDailyStreak` below today: count consecutive days
with at least one lesson, stopping at the first empty day (`break`). -/
def consecutiveNonempty : List GroupedDay → Nat
  | [] => 0
  | g :: rest =>
      if g.lessons.length > 0 then 1 + consecutiveNonempty rest else 0

/-- `getDailyStreak()` (`src/services/historyService.ts` lines 183-200): walk
the grouped days from today backward; a day with lessons extends the streak,
an empty day breaks it — except today (`i === grouped.length - 1`), whose
emptiness is skipped with `continue`. -/
def getDailyStreak (stored : StoredValue) (now : Int) : Nat :=
  let grouped := getLessonsGroupedByDay stored now
  match grouped.reverse with
  | [] => 0
  | today :: rest =>
      (if today.lessons.length > 0 then 1 else 0) + consecutiveNonempty rest

/-- The reply of `getWeeklySkillAverages`. -/
structure SkillAverages where
  pronunciation : ℚ
  fluency : ℚ
  intonation : ℚ
  vocabulary : ℚ
  grammar : ℚ
  taskFulfillment : ℚ
  totalLessons : Nat
  totalTime : ℚ
deriving DecidableEq, Repr

/-- `Math.round(x * 10) / 10` as applied to each average. -/
def round1 (q : ℚ) : ℚ := (jsRound (q * 10) : ℚ) / 10

/-- `getWeeklySkillAverages()` (`src/services/historyService.ts` lines
121-166): all-zero on empty history, else per-skill means rounded to one
decimal, plus lesson count and total duration. -/
def getWeeklySkillAverages (stored : StoredValue) (now : Int) :
    SkillAverages :=
  let history := (getLessonHistory stored now).1
  if history.length = 0 then ⟨0, 0, 0, 0, 0, 0, 0, 0⟩
  else
    let count : ℚ := history.length
    ⟨round1 ((history.map (·.pronunciation)).sum / count),
     round1 ((history.map (·.fluency)).sum / count),
     round1 ((history.map (·.intonation)).sum / count),
     round1 ((history.map (·.vocabulary)).sum / count),
     round1 ((history.map (·.grammar)).sum / count),
     round1 ((history.map (·.taskFulfillment)).sum / count),
     history.length,
     (history.map (·.duration)).sum⟩

/-- `getRecentLessons(limit = 5)` (`src/services/historyService.ts` lines
171-174): `history.slice(-limit).reverse()` — the last `limit` records,
newest first (JS `slice(-0)` is `slice(0)`, the whole list). -/
def getRecentLessons (stored : StoredValue) (now : Int)
    (limit : Nat := 5) : List LessonRecord :=
  let history := (getLessonHistory stored now).1
  if limit = 0 then history.reverse
  else (history.drop (history.length - limit)).reverse

/-! ## Concrete errors used by counterexamples and witnesses -/

/-- A Transient-RateLimited error: explicit 429 status, quota markers in the
message and the serialized form. -/
def eQuota : JsError :=
  ⟨some 429, some "quota exceeded", "status 429 resource_exhausted"⟩

/-- A Permanent error: no rate-limit marker anywhere. -/
def ePermanent : JsError :=
  ⟨some 400, some "invalid api key", "authentication failure"⟩

/-! ## Retry orchestrator: loop invariants -/

/-- When every attempt fails with a quota-classified error, the
`geminiService.ts` loop runs its full budget and the final iteration
rethrows that attempt's original error (`throw err`): the post-loop
ServerBusy throw is never reached from an iteration. -/
theorem retryGo_allfail {T : Type} (fn : Nat → Except JsError T)
    (errs : Nat → JsError) (maxRetries : Nat)
    (hfail : ∀ i, fn i = Except.error (errs i))
    (hquota : ∀ i, isQuotaError (errs i) = true) :
    ∀ fuel i, fuel + i = maxRetries → 0 < fuel → ∀ delay waits,
      (retryGo fn maxRetries fuel i delay waits).result
          = Except.error (Thrown.original (errs (maxRetries - 1))) ∧
      (retryGo fn maxRetries fuel i delay waits).attempts = maxRetries := by
  intro fuel
  induction fuel with
  | zero => intro i h h0; omega
  | succ f ih =>
    intro i h _ delay waits
    cases f with
    | zero =>
      have hi : i = maxRetries - 1 := by omega
      have hd : decide (i < maxRetries - 1) = false :=
        decide_eq_false (by omega)
      have hstep : retryGo fn maxRetries (0 + 1) i delay waits
          = ⟨Except.error (Thrown.original (errs i)), waits, i + 1⟩ := by
        simp [retryGo, hfail i, hquota i, hd]
      rw [hstep]
      exact ⟨by rw [hi], by simp; omega⟩
    | succ f' =>
      have hd : decide (i < maxRetries - 1) = true :=
        decide_eq_true (by omega)
      have hstep : retryGo fn maxRetries (f' + 1 + 1) i delay waits
          = retryGo fn maxRetries (f' + 1) (i + 1) (delay * (5 / 2))
              (waits ++ [delay]) := by
        simp [retryGo, hfail i, hquota i, hd]
      rw [hstep]
      exact ih (i + 1) (by omega) (by omega) _ _

/-- When every attempt fails with a quota-classified error, the `part_000`
loop runs its full budget, falls through, and the post-loop code fires on the
last attempt's error. -/
theorem retryGoP0_allfail {T : Type} (fn : Nat → Except JsError T)
    (errs : Nat → JsError) (maxRetries : Nat)
    (hfail : ∀ i, fn i = Except.error (errs i))
    (hquota : ∀ i, isQuotaErrorP0 (errs i) = true) :
    ∀ fuel i, fuel + i = maxRetries → 0 < fuel → ∀ delay waits lastE,
      (retryGoP0 fn maxRetries fuel i delay waits lastE).result
          = p0Final (some (errs (maxRetries - 1))) ∧
      (retryGoP0 fn maxRetries fuel i delay waits lastE).attempts
          = maxRetries := by
  intro fuel
  induction fuel with
  | zero => intro i h h0; omega
  | succ f ih =>
    intro i h _ delay waits lastE
    cases f with
    | zero =>
      have hi : i = maxRetries - 1 := by omega
      have hd : decide (i < maxRetries - 1) = false :=
        decide_eq_false (by omega)
      have hstep : retryGoP0 fn maxRetries (0 + 1) i delay waits lastE
          = ⟨p0Final (some (errs i)), waits, i + 1⟩ := by
        simp [retryGoP0, hfail i, hquota i, hd]
      rw [hstep]
      exact ⟨by rw [hi], by simp; omega⟩
    | succ f' =>
      have hd : decide (i < maxRetries - 1) = true :=
        decide_eq_true (by omega)
      have hstep : retryGoP0 fn maxRetries (f' + 1 + 1) i delay waits lastE
          = retryGoP0 fn maxRetries (f' + 1) (i + 1) (delay * (5 / 2))
              (waits ++ [delay]) (some (errs i)) := by
        simp [retryGoP0, hfail i, hquota i, hd]
      rw [hstep]
      exact ih (i + 1) (by omega) (by omega) _ _ _

/-! ## Claim C1 -/

/-- C1, counterexample: an operation failing with a Transient-RateLimited
(429/quota) error on every attempt, run with the default maxRetries = 4.
After exactly 4 attempts `callWithRetry` of `src/services/geminiService.ts`
rethrows the original transient error object (`Thrown.original`, the JS
`throw err`) — the very outcome the Permanent-error path produces — and in
particular not the distinct ServerBusy error (`Thrown.newError
serverBusyMsg`), whose post-loop throw is unreachable here. -/
theorem C1_counterexample :
    callWithRetry (T := Nat) (fun _ => Except.error eQuota) 4 =
      ⟨Except.error (Thrown.original eQuota), [1500, 3750, 9375], 4⟩ ∧
    Thrown.original eQuota ≠ Thrown.newError serverBusyMsg := by
  constructor
  · have hq : isQuotaError eQuota = true := by decide
    norm_num [callWithRetry, retryGo, hq]
  · decide

/-- C1, amended: for an operation failing with a Transient-RateLimited error
on every attempt and maxRetries ≥ 1, `callWithRetry` of
`src/services/geminiService.ts` performs exactly maxRetries attempts and then
rethrows the final attempt's original transient error (no distinct ServerBusy
error); the `callWithRetry` variant of `src/unnamed/part_000` performs
exactly maxRetries attempts and raises the distinct ServerBusy error,
provided the final error's message contains "quota" or "429". -/
theorem C1_retry_exhaustion {T : Type} (fn : Nat → Except JsError T)
    (errs : Nat → JsError) (maxRetries : Nat) (hm : 1 ≤ maxRetries)
    (hfail : ∀ i, fn i = Except.error (errs i))
    (hquota : ∀ i, isQuotaError (errs i) = true)
    (hquotaP0 : ∀ i, isQuotaErrorP0 (errs i) = true)
    (hmsg : (strContains (jsOr (errs (maxRetries - 1)).message "Unknown error")
          "quota"
        || strContains (jsOr (errs (maxRetries - 1)).message "Unknown error")
          "429") = true) :
    (callWithRetry fn maxRetries).result
        = Except.error (Thrown.original (errs (maxRetries - 1))) ∧
    (callWithRetry fn maxRetries).attempts = maxRetries ∧
    (callWithRetryP0 fn maxRetries).result
        = Except.error (Thrown.newError serverBusyMsgP0) ∧
    (callWithRetryP0 fn maxRetries).attempts = maxRetries := by
  obtain ⟨h1, h2⟩ := retryGo_allfail fn errs maxRetries hfail hquota
    maxRetries 0 (by omega) hm 1500 []
  obtain ⟨h3, h4⟩ := retryGoP0_allfail fn errs maxRetries hfail hquotaP0
    maxRetries 0 (by omega) hm 1500 [] none
  refine ⟨h1, h2, ?_, h4⟩
  show (retryGoP0 fn maxRetries maxRetries 0 1500 [] none).result = _
  rw [h3]
  simp only [p0Final, Option.some_bind]
  simp [hmsg]

/-- C1, witness for the amended theorem at a concrete transient error. -/
theorem C1_retry_exhaustion_witness :
    (callWithRetry (T := Nat) (fun _ => Except.error eQuota) 4).result
        = Except.error (Thrown.original eQuota) ∧
    (callWithRetry (T := Nat) (fun _ => Except.error eQuota) 4).attempts = 4 ∧
    (callWithRetryP0 (T := Nat) (fun _ => Except.error eQuota) 4).result
        = Except.error (Thrown.newError serverBusyMsgP0) ∧
    (callWithRetryP0 (T := Nat) (fun _ => Except.error eQuota) 4).attempts
        = 4 := by
  have hq : isQuotaError eQuota = true := by decide
  have hq0 : isQuotaErrorP0 eQuota = true := by decide
  exact C1_retry_exhaustion (fun _ => Except.error eQuota) (fun _ => eQuota) 4
    (by omega) (fun _ => rfl) (fun _ => hq) (fun _ => hq0) (by decide)

/-! ## Claim C5 -/

/-- C5: an operation failing with a transient (429/quota) error on attempts
1-3 and succeeding on attempt 4, run with maxRetries = 4: `callWithRetry`
returns the success value unchanged after 4 attempts, and the waits inserted
between attempts are exactly 1500, 3750, 9375 (each 2.5 times the previous,
starting at 1500, uncapped). -/
theorem C5_retry_backoff_sequence {T : Type} (fn : Nat → Except JsError T)
    (e0 e1 e2 : JsError) (v : T)
    (h0 : fn 0 = Except.error e0) (h1 : fn 1 = Except.error e1)
    (h2 : fn 2 = Except.error e2) (h3 : fn 3 = Except.ok v)
    (hq0 : isQuotaError e0 = true) (hq1 : isQuotaError e1 = true)
    (hq2 : isQuotaError e2 = true) :
    callWithRetry fn 4 = ⟨Except.ok v, [1500, 3750, 9375], 4⟩ := by
  norm_num [callWithRetry, retryGo, h0, h1, h2, h3, hq0, hq1, hq2]

/-- C5, witness at a concrete schedule. -/
theorem C5_retry_backoff_sequence_witness :
    callWithRetry (T := Nat)
      (fun i => if i < 3 then Except.error eQuota else Except.ok 42) 4 =
      ⟨Except.ok 42, [1500, 3750, 9375], 4⟩ :=
  C5_retry_backoff_sequence _ eQuota eQuota eQuota 42 rfl rfl rfl rfl
    (by decide) (by decide) (by decide)

/-! ## Claim C6 -/

/-- C6: an operation whose first attempt fails with an error classified
Permanent (not Transient-RateLimited) makes `callWithRetry` raise
immediately: one attempt, no wait, and the raised error carries the original
failure — `geminiService.ts` rethrows the error object itself, the
`part_000` variant throws a new error carrying the original message (or the
generic `Lỗi API:` text when the message is absent or empty). -/
theorem C6_permanent_short_circuit {T : Type} (fn : Nat → Except JsError T)
    (e : JsError) (maxRetries : Nat) (hm : 1 ≤ maxRetries)
    (h0 : fn 0 = Except.error e)
    (hq : isQuotaError e = false) (hqP0 : isQuotaErrorP0 e = false) :
    callWithRetry fn maxRetries = ⟨Except.error (Thrown.original e), [], 1⟩ ∧
    callWithRetryP0 fn maxRetries =
      ⟨Except.error (Thrown.newError
        (jsOr e.message ("Lỗi API: " ++ e.serialized))), [], 1⟩ := by
  match maxRetries, hm with
  | k + 1, _ =>
    constructor
    · norm_num [callWithRetry, retryGo, h0, hq]
    · norm_num [callWithRetryP0, retryGoP0, h0, hqP0]

/-- C6, witness at a concrete permanent error. -/
theorem C6_permanent_short_circuit_witness :
    callWithRetry (T := Nat) (fun _ => Except.error ePermanent) 4 =
      ⟨Except.error (Thrown.original ePermanent), [], 1⟩ ∧
    callWithRetryP0 (T := Nat) (fun _ => Except.error ePermanent) 4 =
      ⟨Except.error (Thrown.newError
        (jsOr ePermanent.message ("Lỗi API: " ++ ePermanent.serialized))),
       [], 1⟩ :=
  C6_permanent_short_circuit (fun _ => Except.error ePermanent) ePermanent 4
    (by omega) rfl (by decide) (by decide)

/-! ## Claim C7 -/

/-- C7, counterexample: with maxRetries = 0 (a value ≤ 1) the wrapped
operation is never attempted — the loop body does not run and the terminal
ServerBusy error is thrown after 0 attempts, not exactly 1. -/
theorem C7_counterexample :
    callWithRetry (T := Nat) (fun _ => Except.error eQuota) 0 =
      ⟨Except.error (Thrown.newError serverBusyMsg), [], 0⟩ := by
  decide

/-- C7, amended: with maxRetries = 1 the operation is attempted exactly once
and a failure is rethrown at once with no wait; with maxRetries = 0 (the only
other value ≤ 1, as the count is a non-negative integer) the operation is
never attempted and the terminal ServerBusy error is raised at once with no
wait. -/
theorem C7_low_budget {T : Type} (fn : Nat → Except JsError T) (e : JsError)
    (hfail : fn 0 = Except.error e) :
    callWithRetry fn 1 = ⟨Except.error (Thrown.original e), [], 1⟩ ∧
    callWithRetry fn 0 =
      ⟨Except.error (Thrown.newError serverBusyMsg), [], 0⟩ := by
  constructor
  · norm_num [callWithRetry, retryGo, hfail]
  · rfl

/-- C7, witness for the amended theorem. -/
theorem C7_low_budget_witness :
    callWithRetry (T := Nat) (fun _ => Except.error ePermanent) 1 =
      ⟨Except.error (Thrown.original ePermanent), [], 1⟩ ∧
    callWithRetry (T := Nat) (fun _ => Except.error ePermanent) 0 =
      ⟨Except.error (Thrown.newError serverBusyMsg), [], 0⟩ :=
  C7_low_budget (fun _ => Except.error ePermanent) ePermanent rfl

/-! ## Audio decode: helper lemmas -/

/-- `bytesToInt16` yields one sample per byte pair; a trailing odd byte
contributes nothing. -/
theorem bytesToInt16_length : ∀ data : List Nat,
    (bytesToInt16 data).length = data.length / 2
  | [] => rfl
  | [_] => by simp [bytesToInt16]
  | b0 :: b1 :: rest => by
    have := bytesToInt16_length rest
    simp only [bytesToInt16, List.length_cons]
    omega

/-- Dropping a leading byte pair shifts the sample index by one. -/
theorem int16At_cons (b0 b1 : Nat) (rest : List Nat) (k : Nat) :
    int16At (b0 :: b1 :: rest) (k + 1) = int16At rest k := by
  simp only [int16At]
  have h1 : 2 * (k + 1) = 2 * k + 1 + 1 := by ring
  rw [h1, List.getD_cons_succ, List.getD_cons_succ, List.getD_cons_succ,
    List.getD_cons_succ]

/-- The `k`-th element of `bytesToInt16 data` is the 16-bit little-endian
value of bytes `2k, 2k+1`. -/
theorem bytesToInt16_getD : ∀ (data : List Nat) (k : Nat),
    k < data.length / 2 → (bytesToInt16 data).getD k 0 = int16At data k
  | [], k, h => by
      simp only [List.length_nil] at h; omega
  | [b], k, h => by
      simp only [List.length_cons, List.length_nil] at h; omega
  | b0 :: b1 :: rest, 0, _ => by
      simp [bytesToInt16, int16At]
  | b0 :: b1 :: rest, k + 1, h => by
      have hk : k < rest.length / 2 := by
        simp only [List.length_cons] at h; omega
      rw [bytesToInt16, List.getD_cons_succ, bytesToInt16_getD rest k hk,
        int16At_cons]

/-- Any position of a byte list (bytes below 256, default 0) reads below
256. -/
theorem getD_lt_256 {data : List Nat} (hb : ∀ b ∈ data, b < 256) (j : Nat) :
    data.getD j 0 < 256 := by
  rw [List.getD_eq_getElem?_getD]
  rcases Nat.lt_or_ge j data.length with h | h
  · rw [List.getElem?_eq_getElem h]
    exact hb _ (List.getElem_mem h)
  · rw [List.getElem?_eq_none h]
    norm_num

/-- A decoded 16-bit sample lies in the signed 16-bit range. -/
theorem int16At_bounds {data : List Nat} (hb : ∀ b ∈ data, b < 256)
    (k : Nat) : -32768 ≤ int16At data k ∧ int16At data k ≤ 32767 := by
  have h0 := getD_lt_256 hb (2 * k)
  have h1 := getD_lt_256 hb (2 * k + 1)
  simp only [int16At]
  split <;> omega

/-- Reading a mapped range at an in-bounds index gives the function value. -/
theorem getD_range_map {α : Type} (f : Nat → α) (n j : Nat) (d : α)
    (h : j < n) : ((List.range n).map f).getD j d = f j := by
  rw [List.getD_eq_getElem?_getD, List.getElem?_map, List.getElem?_range h]
  rfl

/-! ## Claim C2 -/

/-- C2, counterexample: the even-length byte sequence [0, 0] (one 16-bit
sample) at channel count 3 has ⌊1 / 3⌋ = 0 frames, and `decodeAudioData`
does not produce a zero-frame buffer there: `ctx.createBuffer` throws a
`NotSupportedError` on the zero length, so the call rejects. -/
theorem C2_counterexample :
    decodeAudioData [0, 0] 3 = Except.error DecodeError.zeroLengthBuffer := by
  decide

/-- C2, amended: on an even-length byte sequence with channel count C ≥ 1,
`decodeAudioData` fails with the `NotSupportedError` of `ctx.createBuffer`
when ⌊(byte count / 2) / C⌋ = 0, and otherwise succeeds with exactly C
channels of exactly ⌊(byte count / 2) / C⌋ frames each (remainder samples
discarded), the sample of channel c at frame i being the signed 16-bit
little-endian value at interleaved index `i * C + c` divided by 32768, with
every sample in [-1, 1). -/
theorem C2_decodeAudioData_deinterleaves (data : List Nat) (C : Nat)
    (hb : ∀ b ∈ data, b < 256) (heven : data.length % 2 = 0) (hC : 1 ≤ C) :
    (data.length / 2 / C = 0 →
      decodeAudioData data C = Except.error DecodeError.zeroLengthBuffer) ∧
    (1 ≤ data.length / 2 / C →
    ∃ chans : List (List ℚ),
      decodeAudioData data C = Except.ok chans ∧
      chans.length = C ∧
      (∀ ch ∈ chans, ch.length = data.length / 2 / C) ∧
      ∀ c, c < C → ∀ i, i < data.length / 2 / C →
        (chans.getD c []).getD i 0 = (int16At data (i * C + c) : ℚ) / 32768 ∧
        -1 ≤ (chans.getD c []).getD i 0 ∧ (chans.getD c []).getD i 0 < 1) := by
  have hlen16 : (bytesToInt16 data).length = data.length / 2 :=
    bytesToInt16_length data
  constructor
  · intro h0
    have hne : ¬ data.length % 2 ≠ 0 := by omega
    have hfz : (bytesToInt16 data).length / C = 0 := by rw [hlen16]; exact h0
    simp only [decodeAudioData, if_neg hne, if_pos hfz]
  intro hF
  have hok : decodeAudioData data C = Except.ok
      ((List.range C).map fun channel =>
        (List.range ((bytesToInt16 data).length / C)).map fun i =>
          ((bytesToInt16 data).getD (i * C + channel) 0 : ℚ) / 32768) := by
    have hne : ¬ data.length % 2 ≠ 0 := by omega
    have hfz : ¬ (bytesToInt16 data).length / C = 0 := by rw [hlen16]; omega
    simp only [decodeAudioData, if_neg hne, if_neg hfz]
  refine ⟨_, hok, ?_, ?_, ?_⟩
  · simp
  · intro ch hch
    obtain ⟨c, _, rfl⟩ := List.mem_map.mp hch
    simp [hlen16]
  · intro c hc i hi
    have hgc : ∀ d : List ℚ, (((List.range C).map fun channel =>
        (List.range ((bytesToInt16 data).length / C)).map fun k =>
          ((bytesToInt16 data).getD (k * C + channel) 0 : ℚ) / 32768).getD c d)
        = (List.range ((bytesToInt16 data).length / C)).map fun k =>
          ((bytesToInt16 data).getD (k * C + c) 0 : ℚ) / 32768 :=
      fun d => getD_range_map _ C c d hc
    rw [hgc]
    have hi' : i < (bytesToInt16 data).length / C := by rw [hlen16]; exact hi
    rw [getD_range_map _ _ i _ hi']
    have hbound : i * C + c < data.length / 2 := by
      have h1 : i * C + c < (i + 1) * C := by
        have : c < C := hc
        calc i * C + c < i * C + C := by omega
        _ = (i + 1) * C := by ring
      have h2 : (i + 1) * C ≤ (data.length / 2 / C) * C :=
        Nat.mul_le_mul_right C hi
      have h3 : (data.length / 2 / C) * C ≤ data.length / 2 :=
        Nat.div_mul_le_self _ C
      omega
    rw [bytesToInt16_getD data (i * C + c) hbound]
    obtain ⟨hlo, hhi⟩ := int16At_bounds hb (i * C + c)
    refine ⟨rfl, ?_, ?_⟩
    · rw [le_div_iff₀ (by norm_num : (0 : ℚ) < 32768)]
      have : (-32768 : ℚ) ≤ (int16At data (i * C + c) : ℚ) := by
        exact_mod_cast hlo
      linarith
    · rw [div_lt_one (by norm_num : (0 : ℚ) < 32768)]
      have : (int16At data (i * C + c) : ℚ) ≤ 32767 := by exact_mod_cast hhi
      linarith

/-- C2, witness: 20 bytes (10 samples) at channel count 3 give exactly
3 frames per channel, the spec's worked example (the zero-frame branch is
vacuous there). -/
theorem C2_decodeAudioData_deinterleaves_witness :
    ((List.replicate 20 128 : List Nat).length / 2 / 3 = 0 →
      decodeAudioData (List.replicate 20 128) 3
          = Except.error DecodeError.zeroLengthBuffer) ∧
    (1 ≤ (List.replicate 20 128 : List Nat).length / 2 / 3 →
    ∃ chans : List (List ℚ),
      decodeAudioData (List.replicate 20 128) 3 = Except.ok chans ∧
      chans.length = 3 ∧
      (∀ ch ∈ chans, ch.length = 3) ∧
      ∀ c, c < 3 → ∀ i, i < 3 →
        (chans.getD c []).getD i 0
            = (int16At (List.replicate 20 128) (i * 3 + c) : ℚ) / 32768 ∧
        -1 ≤ (chans.getD c []).getD i 0 ∧ (chans.getD c []).getD i 0 < 1) :=
  C2_decodeAudioData_deinterleaves (List.replicate 20 128) 3 (by decide)
    (by decide) (by decide)

/-! ## Claim C3 -/

/-- C3: on a byte sequence of odd length, `decodeAudioData` fails with the
DecodeError raised by the `Int16Array` construction and produces no sample
buffer — the trailing byte is not silently truncated. -/
theorem C3_decodeAudioData_odd_fails (data : List Nat) (C : Nat)
    (h : data.length % 2 ≠ 0) :
    decodeAudioData data C = Except.error DecodeError.oddByteLength := by
  unfold decodeAudioData
  rw [if_pos h]

/-- C3, witness at a 3-byte input. -/
theorem C3_decodeAudioData_odd_fails_witness :
    decodeAudioData [0, 255, 7] 1 = Except.error DecodeError.oddByteLength :=
  C3_decodeAudioData_odd_fails [0, 255, 7] 1 (by decide)

/-! ## Claim C4 -/

/-- Looking up the base64 digit of a sextet recovers the sextet. -/
theorem sextet_inv_fin : ∀ n : Fin 64,
    sextetOfChar (charOfSextet n.val) = some n.val := by decide

/-- No base64 digit is the padding character. -/
theorem charOfSextet_ne_pad_fin : ∀ n : Fin 64, charOfSextet n.val ≠ '=' := by
  decide

/-- Nat-indexed form of `sextet_inv_fin`. -/
theorem sextet_inv {n : Nat} (h : n < 64) :
    sextetOfChar (charOfSextet n) = some n := sextet_inv_fin ⟨n, h⟩

/-- Nat-indexed form of `charOfSextet_ne_pad_fin`. -/
theorem charOfSextet_ne_pad {n : Nat} (h : n < 64) : charOfSextet n ≠ '=' :=
  charOfSextet_ne_pad_fin ⟨n, h⟩

/-- Decoding inverts encoding chunk by chunk. -/
theorem decodeChunks_encodeChunks : ∀ bs : List Nat, (∀ b ∈ bs, b < 256) →
    decodeChunks (encodeChunks bs) = some bs
  | [], _ => rfl
  | [b0], h => by
      have hb0 : b0 < 256 := h b0 (by simp)
      rw [encodeChunks, decodeChunks]
      rw [if_pos ⟨rfl, rfl, rfl⟩]
      rw [sextet_inv (by omega), sextet_inv (by omega)]
      simp only [Option.some.injEq]
      congr 1
      omega
  | [b0, b1], h => by
      have hb0 : b0 < 256 := h b0 (by simp)
      have hb1 : b1 < 256 := h b1 (by simp)
      rw [encodeChunks, decodeChunks]
      rw [if_neg (fun hcon => charOfSextet_ne_pad (by omega) hcon.1)]
      rw [if_pos ⟨rfl, rfl⟩]
      rw [sextet_inv (by omega), sextet_inv (by omega), sextet_inv (by omega)]
      simp only [Option.some.injEq]
      congr 1
      · omega
      · congr 1
        omega
  | b0 :: b1 :: b2 :: rest, h => by
      have hb0 : b0 < 256 := h b0 (by simp)
      have hb1 : b1 < 256 := h b1 (by simp)
      have hb2 : b2 < 256 := h b2 (by simp)
      have hr : ∀ b ∈ rest, b < 256 := fun b hb => h b (by simp [hb])
      have ih := decodeChunks_encodeChunks rest hr
      rw [encodeChunks, decodeChunks]
      rw [if_neg (fun hcon => charOfSextet_ne_pad (by omega) hcon.1)]
      rw [if_neg (fun hcon => charOfSextet_ne_pad (by omega) hcon.1)]
      rw [sextet_inv (by omega), sextet_inv (by omega), sextet_inv (by omega),
        sextet_inv (by omega), ih]
      simp only [Option.some.injEq]
      congr 1
      · omega
      · congr 1
        · omega
        · congr 1
          omega

/-- C4: for every byte sequence b, `decode(encode(b)) == b` — the codec
bridge's base64 round-trip identity. -/
theorem C4_decode_encode_roundtrip (bs : List Nat)
    (hb : ∀ b ∈ bs, b < 256) : decode (encode bs) = some bs :=
  decodeChunks_encodeChunks bs hb

/-- C4, witness covering all three padding shapes via a 5-byte input. -/
theorem C4_decode_encode_roundtrip_witness :
    decode (encode [0, 1, 77, 128, 255]) = some [0, 1, 77, 128, 255] :=
  C4_decode_encode_roundtrip [0, 1, 77, 128, 255] (by decide)

/-! ## Lesson history: helper lemmas and claims C8, C9, C10 -/

/-- The divisor is positive, so floor division `fdiv` agrees with Euclidean
division, which `omega` can reason about. -/
theorem dayOf_eq_ediv (t : Int) : dayOf t = t / 86400000 :=
  Int.fdiv_eq_ediv t (by norm_num)

/-- Boolean equality test on unequal integers. -/
theorem int_beq_false {a b : Int} (h : a ≠ b) : (a == b) = false :=
  beq_eq_false_iff_ne.mpr h

/-- A concrete lesson record at a given timestamp, for witnesses. -/
def mkRecord (d : Int) : LessonRecord :=
  ⟨"lesson", d, "Zoo", "A1", "An", 8, 8, 8, 8, 8, 8, 8, "A1", 60⟩

/-- C8: a read of the lesson history prunes records older than 7 days: with
stored records dated today, 3 days ago and 10 days ago, a read performed
today returns only the first two and rewrites the backing store to drop the
pruned record; and on any store, every record a read returns is at most
7 days old. -/
theorem C8_history_prunes (now : Int) (r1 r2 r3 : LessonRecord)
    (h1 : r1.date = now) (h2 : r2.date = now - 3 * 86400000)
    (h3 : r3.date = now - 10 * 86400000) :
    getLessonHistory (StoredValue.valid [r1, r2, r3]) now
        = ([r1, r2], StoredValue.valid [r1, r2]) ∧
    ∀ (stored : StoredValue) (r : LessonRecord),
      r ∈ (getLessonHistory stored now).1 →
      ((now - r.date : ℤ) : ℚ) / msPerDay ≤ EXPIRY_DAYS := by
  constructor
  · have hf1 : isFresh now r1 = true := by
      simp only [isFresh, h1, decide_eq_true_eq, sub_self]
      norm_num [msPerDay, EXPIRY_DAYS]
    have hf2 : isFresh now r2 = true := by
      simp only [isFresh, h2, decide_eq_true_eq]
      have e : (now - (now - 3 * 86400000) : ℤ) = 3 * 86400000 := by ring
      rw [e]
      norm_num [msPerDay, EXPIRY_DAYS]
    have hf3 : isFresh now r3 = false := by
      simp only [isFresh, h3, decide_eq_false_iff_not]
      have e : (now - (now - 10 * 86400000) : ℤ) = 10 * 86400000 := by ring
      rw [e]
      norm_num [msPerDay, EXPIRY_DAYS]
    simp [getLessonHistory, hf1, hf2, hf3]
  · intro stored r hr
    cases stored with
    | absent => simp [getLessonHistory] at hr
    | corrupt raw => simp [getLessonHistory] at hr
    | valid records =>
      have hfst : (getLessonHistory (StoredValue.valid records) now).1
          = records.filter (isFresh now) := by
        simp only [getLessonHistory]
        split <;> rfl
      rw [hfst] at hr
      exact of_decide_eq_true (List.mem_filter.mp hr).2

/-- C8, witness at today = epoch. -/
theorem C8_history_prunes_witness :
    getLessonHistory (StoredValue.valid
        [mkRecord 0, mkRecord (-3 * 86400000), mkRecord (-10 * 86400000)]) 0
      = ([mkRecord 0, mkRecord (-3 * 86400000)],
         StoredValue.valid [mkRecord 0, mkRecord (-3 * 86400000)]) ∧
    ∀ (stored : StoredValue) (r : LessonRecord),
      r ∈ (getLessonHistory stored 0).1 →
      ((0 - r.date : ℤ) : ℚ) / msPerDay ≤ EXPIRY_DAYS :=
  C8_history_prunes 0 (mkRecord 0) (mkRecord (-3 * 86400000))
    (mkRecord (-10 * 86400000)) rfl (by norm_num [mkRecord])
    (by norm_num [mkRecord])

/-- C9: the daily streak counts consecutive calendar days with at least one
record, scanning back from today, and today is exempt from breaking the
streak when empty: records today and yesterday with none before give
streak 2; no record today but one yesterday gives streak 1 (the scan does
not break on today); and additionally a record two days ago extends that to
streak 2. -/
theorem C9_daily_streak (now : Int) (r0 r1 r2 : LessonRecord)
    (h0 : r0.date = now) (h1 : r1.date = now - 86400000)
    (h2 : r2.date = now - 2 * 86400000) :
    getDailyStreak (StoredValue.valid [r0, r1]) now = 2 ∧
    getDailyStreak (StoredValue.valid [r1]) now = 1 ∧
    getDailyStreak (StoredValue.valid [r1, r2]) now = 2 := by
  have hd0 : dayOf r0.date = dayOf now := by rw [h0]
  have hd1 : dayOf r1.date = dayOf now - 1 := by
    rw [dayOf_eq_ediv, dayOf_eq_ediv, h1]; omega
  have hd2 : dayOf r2.date = dayOf now - 2 := by
    rw [dayOf_eq_ediv, dayOf_eq_ediv, h2]; omega
  have hf0 : isFresh now r0 = true := by
    simp only [isFresh, h0, decide_eq_true_eq, sub_self]
    norm_num [msPerDay, EXPIRY_DAYS]
  have hf1 : isFresh now r1 = true := by
    simp only [isFresh, h1, decide_eq_true_eq]
    have e : (now - (now - 86400000) : ℤ) = 86400000 := by ring
    rw [e]
    norm_num [msPerDay, EXPIRY_DAYS]
  have hf2 : isFresh now r2 = true := by
    simp only [isFresh, h2, decide_eq_true_eq]
    have e : (now - (now - 2 * 86400000) : ℤ) = 2 * 86400000 := by ring
    rw [e]
    norm_num [msPerDay, EXPIRY_DAYS]
  have hrange : List.range 7 = [0, 1, 2, 3, 4, 5, 6] := rfl
  refine ⟨?_, ?_, ?_⟩
  · have hh : (getLessonHistory (StoredValue.valid [r0, r1]) now).1
        = [r0, r1] := by
      simp [getLessonHistory, hf0, hf1]
    simp only [getDailyStreak, getLessonsGroupedByDay, hh, hrange, List.map]
    norm_num [hd0, hd1, consecutiveNonempty,
      int_beq_false (show dayOf now ≠ dayOf now - 6 by omega),
      int_beq_false (show dayOf now ≠ dayOf now - 5 by omega),
      int_beq_false (show dayOf now ≠ dayOf now - 4 by omega),
      int_beq_false (show dayOf now ≠ dayOf now - 3 by omega),
      int_beq_false (show dayOf now ≠ dayOf now - 2 by omega),
      int_beq_false (show dayOf now ≠ dayOf now - 1 by omega),
      int_beq_false (show dayOf now - 1 ≠ dayOf now - 6 by omega),
      int_beq_false (show dayOf now - 1 ≠ dayOf now - 5 by omega),
      int_beq_false (show dayOf now - 1 ≠ dayOf now - 4 by omega),
      int_beq_false (show dayOf now - 1 ≠ dayOf now - 3 by omega),
      int_beq_false (show dayOf now - 1 ≠ dayOf now - 2 by omega),
      int_beq_false (show dayOf now - 1 ≠ dayOf now by omega)]
  · have hh : (getLessonHistory (StoredValue.valid [r1]) now).1 = [r1] := by
      simp [getLessonHistory, hf1]
    simp only [getDailyStreak, getLessonsGroupedByDay, hh, hrange, List.map]
    norm_num [hd1, consecutiveNonempty,
      int_beq_false (show dayOf now - 1 ≠ dayOf now - 6 by omega),
      int_beq_false (show dayOf now - 1 ≠ dayOf now - 5 by omega),
      int_beq_false (show dayOf now - 1 ≠ dayOf now - 4 by omega),
      int_beq_false (show dayOf now - 1 ≠ dayOf now - 3 by omega),
      int_beq_false (show dayOf now - 1 ≠ dayOf now - 2 by omega),
      int_beq_false (show dayOf now - 1 ≠ dayOf now by omega)]
  · have hh : (getLessonHistory (StoredValue.valid [r1, r2]) now).1
        = [r1, r2] := by
      simp [getLessonHistory, hf1, hf2]
    simp only [getDailyStreak, getLessonsGroupedByDay, hh, hrange, List.map]
    norm_num [hd1, hd2, consecutiveNonempty,
      int_beq_false (show dayOf now - 1 ≠ dayOf now - 6 by omega),
      int_beq_false (show dayOf now - 1 ≠ dayOf now - 5 by omega),
      int_beq_false (show dayOf now - 1 ≠ dayOf now - 4 by omega),
      int_beq_false (show dayOf now - 1 ≠ dayOf now - 3 by omega),
      int_beq_false (show dayOf now - 1 ≠ dayOf now - 2 by omega),
      int_beq_false (show dayOf now - 1 ≠ dayOf now by omega),
      int_beq_false (show dayOf now - 2 ≠ dayOf now - 6 by omega),
      int_beq_false (show dayOf now - 2 ≠ dayOf now - 5 by omega),
      int_beq_false (show dayOf now - 2 ≠ dayOf now - 4 by omega),
      int_beq_false (show dayOf now - 2 ≠ dayOf now - 3 by omega),
      int_beq_false (show dayOf now - 2 ≠ dayOf now - 1 by omega),
      int_beq_false (show dayOf now - 2 ≠ dayOf now by omega)]

/-- C9, witness at today = epoch. -/
theorem C9_daily_streak_witness :
    getDailyStreak (StoredValue.valid
        [mkRecord 0, mkRecord (-86400000)]) 0 = 2 ∧
    getDailyStreak (StoredValue.valid [mkRecord (-86400000)]) 0 = 1 ∧
    getDailyStreak (StoredValue.valid
        [mkRecord (-86400000), mkRecord (-2 * 86400000)]) 0 = 2 :=
  C9_daily_streak 0 (mkRecord 0) (mkRecord (-86400000))
    (mkRecord (-2 * 86400000)) rfl (by norm_num [mkRecord])
    (by norm_num [mkRecord])

/-- C10: on storage that is absent or not parseable, `getLessonHistory`
returns the empty list (from the catch) rather than failing, and every
derived view — day grouping, weekly skill averages, recent lessons, daily
streak — is defined there and takes its empty-history value. -/
theorem C10_corrupt_storage_safe (now : Int) (raw : String) :
    (getLessonHistory StoredValue.absent now).1 = [] ∧
    (getLessonHistory (StoredValue.corrupt raw) now).1 = [] ∧
    getLessonsGroupedByDay StoredValue.absent now
        = getLessonsGroupedByDay (StoredValue.valid []) now ∧
    getLessonsGroupedByDay (StoredValue.corrupt raw) now
        = getLessonsGroupedByDay (StoredValue.valid []) now ∧
    getWeeklySkillAverages StoredValue.absent now = ⟨0, 0, 0, 0, 0, 0, 0, 0⟩ ∧
    getWeeklySkillAverages (StoredValue.corrupt raw) now
        = ⟨0, 0, 0, 0, 0, 0, 0, 0⟩ ∧
    getRecentLessons StoredValue.absent now 5 = [] ∧
    getRecentLessons (StoredValue.corrupt raw) now 5 = [] ∧
    getDailyStreak StoredValue.absent now = 0 ∧
    getDailyStreak (StoredValue.corrupt raw) now = 0 := by
  have hrange : List.range 7 = [0, 1, 2, 3, 4, 5, 6] := rfl
  refine ⟨rfl, rfl, rfl, rfl, rfl, rfl, rfl, rfl, ?_, ?_⟩ <;>
    simp [getDailyStreak, getLessonsGroupedByDay, getLessonHistory, hrange,
      consecutiveNonempty]

end SpeakPro
